import Mathlib

/-!
Shallow embedding of `src/language/tools/cost_synthesis/src/module_generator.rs`
(random module / module-universe generation for the Move VM container format).

Conventions of the embedding:
* `usize` lengths are `Nat`; the container format's `TableIndex`/`MemberCount`
  are `u16`, so every `as TableIndex` / `as u16` cast in the source is modelled
  by `u16 n = n % 2^16`.
* Identifiers are modelled by the inductive `Ident`: the source builds them
  either from randomly drawn characters (`Ident.rand`), or from the format
  strings `"func{i}"` (`Ident.fname i`) and `"struct{i}"` (`Ident.sname i`).
* The seeded PRNG (`rand::StdRng`) is external to the repository; it is
  modelled as a deterministic stream: a pure function of the 32-byte seed and
  a draw counter.  `AccountAddress::random()` (crate `types`, not under `src/`)
  does not receive the builder's seeded generator, so it is modelled as a draw
  from a separate operating-system entropy stream `OsS` threaded through the
  builder.
* Fallible operations (the `known_modules` lookup `.expect`, `gen_range` on an
  empty callee function-handle table, and `freeze().expect`) are modelled with
  `Option`; `none` stands for the corresponding panic.
-/

namespace CostSynthesis

/-- Truncation to 16 bits, modelling Rust `as u16` / `as TableIndex` casts. -/
def u16 (n : Nat) : Nat := n % 65536

/-- Modelled from the spec: bounds from `crate::common` (the `common.rs` file of
the cost-synthesis crate is not under `src/`); the spec only uses the names
`MAX_STRING_SIZE`, `MAX_FIELDS`, `BYTE_ARRAY_MAX_SIZE` as exclusive upper
bounds of uniform draws with lower bound 1.  Exact values are irrelevant to the
claims; all are at least 2. -/
def MAX_STRING_SIZE : Nat := 100

/-- Modelled from the spec: exclusive bound on struct field counts. -/
def MAX_FIELDS : Nat := 10

/-- Modelled from the spec: exclusive bound on byte-array lengths. -/
def BYTE_ARRAY_MAX_SIZE : Nat := 64

/-- Modelled from the spec: exclusive bound on local counts. -/
def MAX_NUM_LOCALS : Nat := 10

/-- Modelled from the spec: exclusive bound on argument counts. -/
def MAX_FUNCTION_CALL_SIZE : Nat := 5

/-- Modelled from the spec: exclusive bound on return-type counts. -/
def MAX_RETURN_TYPES_LENGTH : Nat := 4

/-- Modelled from the spec: `rand::StdRng` is a seedable deterministic stream
("a seedable, reproducible stream of uniform values"); we keep the hash of the
seed and a draw counter. -/
structure RngS where
  h : Nat
  ctr : Nat
deriving DecidableEq

/-- Hash of a 32-byte seed, fixing the stream of the modelled PRNG. -/
def seedHash (seed : List Nat) : Nat := seed.foldl (fun a b => a * 256 + b) 1

/-- Modelled `StdRng::from_seed`. -/
def RngS.fromSeed (seed : List Nat) : RngS := { h := seedHash seed, ctr := 0 }

/-- One raw draw from the modelled PRNG stream. -/
def rngNext (g : RngS) : Nat × RngS :=
  (g.h + g.ctr * 48271, { g with ctr := g.ctr + 1 })

/-- Modelled `Rng::gen_range(lo, hi)`: one draw, mapped uniformly into
`[lo, hi)`.  (Rust panics when `lo >= hi`; no reachable call site does that,
and the model then returns `lo`.) -/
def genRange (lo hi : Nat) (g : RngS) : Nat × RngS :=
  let d := rngNext g
  (if lo < hi then lo + d.1 % (hi - lo) else lo, d.2)

/-- Modelled `Rng::gen_bool(1.0/2.0)`: one draw, reduced to a fair-coin bit. -/
def genBool (g : RngS) : Bool × RngS :=
  let d := rngNext g
  (d.1 % 2 = 0, d.2)

/-- Modelled from the spec: the operating-system entropy stream consumed by
`AccountAddress::random()` (crate `types`, outside `src/`), which does not read
the builder's seeded generator. -/
structure OsS where
  stream : List Nat
deriving DecidableEq

/-- One account address drawn from OS entropy (`AccountAddress::random()`). -/
def osNext (o : OsS) : Nat × OsS :=
  (o.stream.headD 0, { stream := o.stream.tail })

/-- Identifiers: random-character ones (`Identifier::new` of drawn chars, which
the spec says always succeeds for correctly bounded lengths), `"func{i}"`, and
`"struct{i}"`. -/
inductive Ident where
  | rand (chars : List Nat)
  | fname (i : Nat)
  | sname (i : Nat)
deriving DecidableEq, Inhabited

/-- The five primitive signature tokens the generator uses. -/
inductive SignatureToken where
  | Bool
  | U64
  | String
  | ByteArray
  | Address
deriving DecidableEq, Inhabited

/-- The bytecodes the generator (and its documentation) mention; none carries a
cross-table index. -/
inductive Bytecode where
  | Sub
  | Add
  | Ret
  | BrTrue (off : Nat)
  | BrFalse (off : Nat)
  | Branch (off : Nat)
deriving DecidableEq, Inhabited

/-- `ModuleHandle`: (address-pool index, identifier index). -/
structure ModuleHandle where
  address : Nat
  name : Nat
deriving DecidableEq, Inhabited

/-- `StructHandle`. -/
structure StructHandle where
  module : Nat
  name : Nat
  is_nominal_resource : Bool
  type_formals : List Unit
deriving DecidableEq, Inhabited

/-- `StructFieldInformation::Declared`. -/
structure StructFieldInfo where
  field_count : Nat
  fields : Nat
deriving DecidableEq, Inhabited

/-- `StructDefinition`. -/
structure StructDefinition where
  struct_handle : Nat
  field_information : StructFieldInfo
deriving DecidableEq, Inhabited

/-- `FieldDefinition`. -/
structure FieldDefinition where
  struct_ : Nat
  name : Nat
  signature : Nat
deriving DecidableEq, Inhabited

/-- `FunctionHandle`. -/
structure FunctionHandle where
  name : Nat
  signature : Nat
  module : Nat
deriving DecidableEq, Inhabited

/-- `FunctionSignature`. -/
structure FunctionSignature where
  arg_types : List SignatureToken
  return_types : List SignatureToken
  type_formals : List Unit
deriving DecidableEq, Inhabited

/-- `CodeUnit`. -/
structure CodeUnit where
  max_stack_size : Nat
  locals : Nat
  code : List Bytecode
deriving DecidableEq, Inhabited

/-- `CodeUnit::PUBLIC` visibility flag. -/
def PUBLIC : Nat := 1

/-- `FunctionDefinition`. -/
structure FunctionDefinition where
  function : Nat
  flags : Nat
  acquires_global_resources : List Unit
  code : CodeUnit
deriving DecidableEq, Inhabited

/-- `CompiledModuleMut` (crate `vm`, outside `src/`): the mutable aggregate of
pools and tables that the generator fills, as used by `module_generator.rs`. -/
structure CompiledModuleMut where
  module_handles : List ModuleHandle
  struct_handles : List StructHandle
  function_handles : List FunctionHandle
  type_signatures : List SignatureToken
  function_signatures : List FunctionSignature
  locals_signatures : List (List SignatureToken)
  identifiers : List Ident
  user_strings : List (List Nat)
  byte_array_pool : List (List Nat)
  address_pool : List Nat
  struct_defs : List StructDefinition
  field_defs : List FieldDefinition
  function_defs : List FunctionDefinition
deriving DecidableEq, Inhabited

/-- A frozen module; `freeze` only returns it after the bounds check. -/
abbrev CompiledModule := CompiledModuleMut

/-- `VerifiedModule::bypass_verifier_DANGEROUS_FOR_TESTING_ONLY` wraps the
module without any check, so a verified module is modelled as the module. -/
abbrev VerifiedModule := CompiledModule

/-- `ModuleId`: fully-qualified module identity (address, name). -/
abbrev ModuleId := Nat × Ident

/-- The body-synthesis hook type (`BytecodeGenerator`). -/
abbrev BytecodeGen :=
  List SignatureToken → FunctionSignature → CompiledModuleMut → List Bytecode

/-- `ModuleBuilder`.  The extra field `os` models the ambient operating-system
entropy consumed by `AccountAddress::random()`; it is not a constructor
argument in the source (the source constructor takes only `table_size` and
`bytecode_gen`). -/
structure ModuleBuilder where
  gen : RngS
  os : OsS
  module : CompiledModuleMut
  table_size : Nat
  known_modules : List (ModuleId × CompiledModule)
  bytecode_gen : Option BytecodeGen

/-- The defaulted (all-empty) `CompiledModuleMut`. -/
def emptyModule : CompiledModuleMut :=
  { module_handles := [], struct_handles := [], function_handles := []
    type_signatures := [], function_signatures := [], locals_signatures := []
    identifiers := [], user_strings := [], byte_array_pool := []
    address_pool := [], struct_defs := [], field_defs := [], function_defs := [] }

/-- `ModuleBuilder::default_module_with_types`: empty module pre-seeded with
the five primitive type signatures. -/
def default_module_with_types : CompiledModuleMut :=
  { emptyModule with
    type_signatures :=
      [SignatureToken.Bool, SignatureToken.U64, SignatureToken.String,
       SignatureToken.ByteArray, SignatureToken.Address] }

/-- The hardcoded all-zero 32-byte seed of `ModuleBuilder::new`. -/
def zeroSeed : List Nat := List.replicate 32 0

/-- `ModuleBuilder::new(table_size, bytecode_gen)`: the seed is hardcoded to
`[0u8; 32]`; `os` is the ambient OS entropy, not a seed the caller controls. -/
def ModuleBuilder.new (table_size : Nat) (bytecode_gen : Option BytecodeGen)
    (os : OsS) : ModuleBuilder :=
  { gen := RngS.fromSeed zeroSeed, os, module := default_module_with_types
    table_size, known_modules := [], bytecode_gen }

/-- Draw `n` random characters (`gen::<char>()`), in order. -/
def drawChars : Nat → RngS → List Nat × RngS
  | 0, g => ([], g)
  | n + 1, g =>
    let d := rngNext g
    let r := drawChars n d.2
    (d.1 :: r.1, r.2)

/-- Draw `n` random account addresses (`AccountAddress::random()`), in order. -/
def drawAddrs : Nat → OsS → List Nat × OsS
  | 0, o => ([], o)
  | n + 1, o =>
    let d := osNext o
    let r := drawAddrs n d.2
    (d.1 :: r.1, r.2)

/-- Draw `n` random identifiers: length in `[1, MAX_STRING_SIZE)`, then that
many characters (`with_identifiers`' per-element body). -/
def drawIdents : Nat → RngS → List Ident × RngS
  | 0, g => ([], g)
  | n + 1, g =>
    let dl := genRange 1 MAX_STRING_SIZE g
    let dc := drawChars dl.1 dl.2
    let r := drawIdents n dc.2
    (Ident.rand dc.1 :: r.1, r.2)

/-- Draw `n` random user strings (`with_user_strings`' per-element body). -/
def drawStrings : Nat → RngS → List (List Nat) × RngS
  | 0, g => ([], g)
  | n + 1, g =>
    let dl := genRange 1 MAX_STRING_SIZE g
    let dc := drawChars dl.1 dl.2
    let r := drawStrings n dc.2
    (dc.1 :: r.1, r.2)

/-- Draw `n` random bytes (`gen::<u8>()`). -/
def drawBytes : Nat → RngS → List Nat × RngS
  | 0, g => ([], g)
  | n + 1, g =>
    let d := rngNext g
    let r := drawBytes n d.2
    (d.1 % 256 :: r.1, r.2)

/-- Draw `n` random byte arrays: length in `[1, BYTE_ARRAY_MAX_SIZE)`, then
that many bytes (`with_bytearrays`' per-element body). -/
def drawByteArrays : Nat → RngS → List (List Nat) × RngS
  | 0, g => ([], g)
  | n + 1, g =>
    let dl := genRange 1 BYTE_ARRAY_MAX_SIZE g
    let db := drawBytes dl.1 dl.2
    let r := drawByteArrays n db.2
    (db.1 :: r.1, r.2)

/-- `ModuleBuilder::with_callee_modules`: insert the self name, address, and
module handle at position 0, then append one module handle per known module,
pointing at the known modules' names and addresses appended to the pools. -/
def with_callee_modules (b : ModuleBuilder) : ModuleBuilder :=
  let dc := drawChars 10 b.gen
  let module_name : Ident := Ident.rand dc.1
  let da := osNext b.os
  let m0 := b.module
  let m1 := { m0 with
    identifiers := module_name :: m0.identifiers
    address_pool := da.1 :: m0.address_pool
    module_handles := ({ address := 0, name := 0 } : ModuleHandle) :: m0.module_handles }
  let names := b.known_modules.map (fun p => p.1.2)
  let addresses := b.known_modules.map (fun p => p.1.1)
  let address_pool_offset := u16 m1.address_pool.length
  let identifier_offset := u16 m1.identifiers.length
  let m2 := { m1 with
    identifiers := m1.identifiers ++ names
    address_pool := m1.address_pool ++ addresses }
  let module_handles := (List.range b.known_modules.length).map (fun i =>
    ({ address := u16 (address_pool_offset + i), name := u16 (identifier_offset + i) } : ModuleHandle))
  { b with gen := dc.2, os := da.2
           module := { m2 with module_handles := m2.module_handles ++ module_handles } }

/-- `ModuleBuilder::with_account_addresses`: append `table_size` random
addresses. -/
def with_account_addresses (b : ModuleBuilder) : ModuleBuilder :=
  let d := drawAddrs b.table_size b.os
  { b with os := d.2
           module := { b.module with address_pool := b.module.address_pool ++ d.1 } }

/-- `ModuleBuilder::with_identifiers`: append `table_size` random identifiers. -/
def with_identifiers (b : ModuleBuilder) : ModuleBuilder :=
  let d := drawIdents b.table_size b.gen
  { b with gen := d.2
           module := { b.module with identifiers := b.module.identifiers ++ d.1 } }

/-- `ModuleBuilder::with_user_strings`: append `table_size` random strings. -/
def with_user_strings (b : ModuleBuilder) : ModuleBuilder :=
  let d := drawStrings b.table_size b.gen
  { b with gen := d.2
           module := { b.module with user_strings := b.module.user_strings ++ d.1 } }

/-- `ModuleBuilder::with_bytearrays`: assign (not append) the byte-array pool
to `table_size` random byte arrays. -/
def with_bytearrays (b : ModuleBuilder) : ModuleBuilder :=
  let d := drawByteArrays b.table_size b.gen
  { b with gen := d.2
           module := { b.module with byte_array_pool := d.1 } }

/-- Inner loop of `with_structs`: for each field index `i` of the current
struct, draw a type index uniformly from the type-signature pool and push a
field definition whose name index is the raw field ordinal `i`. -/
def fieldLoop (struct_idx : Nat) : List Nat → RngS → CompiledModuleMut → RngS × CompiledModuleMut
  | [], g, m => (g, m)
  | i :: rest, g, m =>
    let d := genRange 0 (u16 m.type_signatures.length) g
    let field_def : FieldDefinition := { struct_ := struct_idx, name := u16 i, signature := d.1 }
    fieldLoop struct_idx rest d.2 { m with field_defs := m.field_defs ++ [field_def] }

/-- Outer loop of `with_structs`: per struct, draw the field count, push the
struct definition (whose field-run start is the current `field_defs` length,
pointing at entries not generated yet), then push its fields. -/
def structLoop : List Nat → RngS → CompiledModuleMut → RngS × CompiledModuleMut
  | [], g, m => (g, m)
  | struct_idx :: rest, g, m =>
    let d := genRange 1 (min m.identifiers.length MAX_FIELDS) g
    let struct_def : StructDefinition :=
      { struct_handle := struct_idx
        field_information := { field_count := u16 d.1, fields := u16 m.field_defs.length } }
    let r := fieldLoop struct_idx (List.range d.1) d.2
      { m with struct_defs := m.struct_defs ++ [struct_def] }
    structLoop rest r.1 r.2

/-- Coin flips for `is_nominal_resource`, building the struct-handle table
(assigned after the struct/field loop). -/
def drawStructHandles (offset : Nat) : List Nat → RngS → List StructHandle × RngS
  | [], g => ([], g)
  | struct_idx :: rest, g =>
    let d := genBool g
    let h : StructHandle :=
      { module := 0, name := u16 (struct_idx + offset), is_nominal_resource := d.1
        type_formals := [] }
    let r := drawStructHandles offset rest d.2
    (h :: r.1, r.2)

/-- `ModuleBuilder::with_structs`: append the reserved `"struct{i}"` names,
run the struct/field loop, then assign the struct-handle table. -/
def with_structs (b : ModuleBuilder) : ModuleBuilder :=
  let names := (List.range b.table_size).map Ident.sname
  let offset := u16 b.module.identifiers.length
  let m1 := { b.module with identifiers := b.module.identifiers ++ names }
  let r := structLoop (List.range b.table_size) b.gen m1
  let dh := drawStructHandles offset (List.range b.table_size) r.1
  { b with gen := dh.2, module := { r.2 with struct_handles := dh.1 } }

/-- The base signature tokens usable for locals/arguments/returns. -/
def sig_toks : List SignatureToken :=
  [SignatureToken.Bool, SignatureToken.U64, SignatureToken.String,
   SignatureToken.ByteArray, SignatureToken.Address]

/-- Draw `n` random tokens, each by an index uniform over `sig_toks`. -/
def drawToks : Nat → RngS → List SignatureToken × RngS
  | 0, g => ([], g)
  | n + 1, g =>
    let d := genRange 0 sig_toks.length g
    let r := drawToks n d.2
    (sig_toks.getD d.1 SignatureToken.Bool :: r.1, r.2)

/-- Draw `n` random function shapes (locals, then a signature of arguments and
returns with empty type formals), as in `with_random_functions`. -/
def drawShapes : Nat → RngS → List (List SignatureToken × FunctionSignature) × RngS
  | 0, g => ([], g)
  | n + 1, g =>
    let dl := genRange 1 MAX_NUM_LOCALS g
    let da := genRange 1 MAX_FUNCTION_CALL_SIZE dl.2
    let dr := genRange 1 MAX_RETURN_TYPES_LENGTH da.2
    let locals := drawToks dl.1 dr.2
    let args := drawToks da.1 locals.2
    let return_types := drawToks dr.1 args.2
    let function_sig : FunctionSignature :=
      { arg_types := args.1, return_types := return_types.1, type_formals := [] }
    let r := drawShapes n return_types.2
    ((locals.1, function_sig) :: r.1, r.2)

/-- `ModuleBuilder::with_functions(sigs)`: append `"func{i}"` names, assign
(overwrite) the function-handle table with one handle per signature (module
component 0), append the signatures and locals signatures, and assign the
function-definition table; bodies come from the hook or the fixed filler. -/
def with_functions (b : ModuleBuilder)
    (sigs : List (List SignatureToken × FunctionSignature)) : ModuleBuilder :=
  let names := (List.range sigs.length).map Ident.fname
  let offset := b.module.identifiers.length
  let function_sig_offset := b.module.function_signatures.length
  let m1 := { b.module with identifiers := b.module.identifiers ++ names }
  let m2 := { m1 with
    function_handles := (List.range sigs.length).map (fun i =>
      ({ name := u16 (i + offset), signature := u16 (i + function_sig_offset)
         module := 0 } : FunctionHandle))
    function_signatures := m1.function_signatures ++ sigs.map (fun s => s.2)
    locals_signatures := m1.locals_signatures ++ sigs.map (fun s => s.1) }
  let function_defs := sigs.enum.map (fun p =>
    ({ function := u16 p.1, flags := PUBLIC, acquires_global_resources := []
       code := { max_stack_size := 20, locals := u16 p.1
                 code := match b.bytecode_gen with
                   | some bg => bg p.2.1 p.2.2 m2
                   | none => [Bytecode.Sub, Bytecode.Sub, Bytecode.Add, Bytecode.Ret] } } : FunctionDefinition))
  { b with module := { m2 with function_defs := function_defs } }

/-- `HashMap::get` on the known-modules registry (association list in key
insertion order). -/
def findKnown (id : ModuleId) (l : List (ModuleId × CompiledModule)) : Option CompiledModule :=
  (l.find? (fun p => p.1 = id)).map (fun p => p.2)

/-- `HashMap::insert`: replace the value under an existing key, else append. -/
def insertKnown (id : ModuleId) (m : CompiledModule)
    (l : List (ModuleId × CompiledModule)) : List (ModuleId × CompiledModule) :=
  if l.any (fun p => p.1 = id) then
    l.map (fun p => if p.1 = id then (id, m) else p)
  else l ++ [(id, m)]

/-- One iteration of the cross-call loop: pick a non-self module handle, look
its identity up in the registry (`.expect`, modelled as `none` on failure),
pick one of the callee's function handles (Rust panics when the callee has
none), copy its name and signature into the local pools, and push a function
handle pointing at the external module handle. -/
def crossStep (module_table_size : Nat) (b : ModuleBuilder) : Option ModuleBuilder :=
  let di := genRange 1 module_table_size b.gen
  let callee_module_handle := b.module.module_handles.getD di.1 default
  let address := b.module.address_pool.getD callee_module_handle.address 0
  let name := b.module.identifiers.getD callee_module_handle.name default
  let module_id : ModuleId := (address, name)
  match findKnown module_id b.known_modules with
  | none => none
  | some callee_module =>
    if callee_module.function_handles.length = 0 then none
    else
      let dc := genRange 0 callee_module.function_handles.length di.2
      let callee_function_handle_idx := u16 dc.1
      let callee_function_handle :=
        callee_module.function_handles.getD callee_function_handle_idx default
      let callee_type_sig :=
        callee_module.function_signatures.getD callee_function_handle.signature default
      let callee_name :=
        callee_module.identifiers.getD callee_function_handle.name default
      let callee_name_idx := u16 b.module.identifiers.length
      let callee_type_sig_idx := u16 b.module.function_signatures.length
      let func_handle : FunctionHandle :=
        { module := u16 di.1, name := callee_name_idx, signature := callee_type_sig_idx }
      some { b with gen := dc.2
                    module := { b.module with
                      identifiers := b.module.identifiers ++ [callee_name]
                      function_signatures := b.module.function_signatures ++ [callee_type_sig]
                      function_handles := b.module.function_handles ++ [func_handle] } }

/-- The cross-call loop: `table_size` iterations of `crossStep`. -/
def crossLoop (module_table_size : Nat) : Nat → ModuleBuilder → Option ModuleBuilder
  | 0, b => some b
  | n + 1, b =>
    match crossStep module_table_size b with
    | none => none
    | some b2 => crossLoop module_table_size n b2

/-- `ModuleBuilder::with_cross_calls`: a no-op with fewer than two module
handles, otherwise `table_size` cross-call iterations. -/
def with_cross_calls (b : ModuleBuilder) : Option ModuleBuilder :=
  let module_table_size := b.module.module_handles.length
  if module_table_size < 2 then some b
  else crossLoop module_table_size b.table_size b

/-- `ModuleBuilder::with_random_functions`: draw `table_size` function shapes,
weave cross calls, then generate the local functions. -/
def with_random_functions (b : ModuleBuilder) : Option ModuleBuilder :=
  let d := drawShapes b.table_size b.gen
  match with_cross_calls { b with gen := d.2 } with
  | none => none
  | some b1 => some (with_functions b1 d.1)

/-- Modelled from the spec: the bounds checker that `freeze` runs (crate `vm`,
outside `src/`) -- "every index stored in any table referencing another table
is strictly less than that table's length", checked per table; for a struct
definition the contiguous field run must lie inside the field-definition
table. -/
def boundsCheck (m : CompiledModuleMut) : Bool :=
  m.module_handles.all (fun h =>
    decide (h.address < m.address_pool.length) && decide (h.name < m.identifiers.length)) &&
  m.struct_handles.all (fun h =>
    decide (h.module < m.module_handles.length) && decide (h.name < m.identifiers.length)) &&
  m.struct_defs.all (fun sd =>
    decide (sd.struct_handle < m.struct_handles.length) &&
    decide (sd.field_information.fields + sd.field_information.field_count ≤ m.field_defs.length)) &&
  m.field_defs.all (fun fd =>
    decide (fd.struct_ < m.struct_handles.length) && decide (fd.name < m.identifiers.length) &&
    decide (fd.signature < m.type_signatures.length)) &&
  m.function_handles.all (fun fh =>
    decide (fh.module < m.module_handles.length) && decide (fh.name < m.identifiers.length) &&
    decide (fh.signature < m.function_signatures.length)) &&
  m.function_defs.all (fun fd =>
    decide (fd.function < m.function_handles.length) &&
    decide (fd.code.locals < m.locals_signatures.length))

/-- `CompiledModuleMut::freeze`: succeeds exactly when the bounds check
passes. -/
def freeze (m : CompiledModuleMut) : Option CompiledModule :=
  if boundsCheck m then some m else none

/-- `CompiledModule::self_id` (crate `vm`, outside `src/`; per the spec,
module-handle index 0 names the module itself): resolve module handle 0
through the address and identifier pools. -/
def selfId (m : CompiledModule) : ModuleId :=
  let h := m.module_handles.getD 0 default
  (m.address_pool.getD h.address 0, m.identifiers.getD h.name default)

/-- The stage pipeline of `materialize_unverified` up to (excluding) freeze. -/
def preFreeze (b : ModuleBuilder) : Option ModuleBuilder :=
  with_random_functions (with_structs (with_bytearrays (with_user_strings
    (with_identifiers (with_account_addresses (with_callee_modules b))))))

/-- `ModuleBuilder::materialize_unverified`: run the pipeline, swap in a fresh
default module, freeze (`.expect`, modelled as `none` on bounds failure), and
register the frozen module under its self identity. -/
def materialize_unverified (b : ModuleBuilder) : Option (CompiledModule × ModuleBuilder) :=
  match preFreeze b with
  | none => none
  | some b1 =>
    let module := b1.module
    let b2 := { b1 with module := default_module_with_types }
    match freeze module with
    | none => none
    | some frozen =>
      some (frozen, { b2 with known_modules := insertKnown (selfId frozen) frozen b2.known_modules })

/-- `ModuleBuilder::materialize`: the frozen module passed through the
verifier bypass. -/
def materialize (b : ModuleBuilder) : Option (VerifiedModule × ModuleBuilder) :=
  materialize_unverified b

/-- `ModuleGenerator`: a builder plus a remaining count. -/
structure ModuleGenerator where
  module_builder : ModuleBuilder
  iters : Nat

/-- `ModuleGenerator::new(table_size, iters)`: builder with no hook.  `os` is
the ambient OS entropy stream. -/
def ModuleGenerator.new (table_size iters : Nat) (os : OsS) : ModuleGenerator :=
  { module_builder := ModuleBuilder.new table_size none os, iters }

/-- Result of one `Iterator::next` pull: a yielded module with the successor
state, end-of-sequence, or a panic inside `materialize`. -/
inductive NextResult where
  | yielded (m : VerifiedModule) (g : ModuleGenerator)
  | exhausted
  | aborted

/-- `Iterator for ModuleGenerator`: at count 0 signal end-of-sequence (state
unchanged), otherwise decrement and materialize. -/
def genNext (g : ModuleGenerator) : NextResult :=
  if g.iters = 0 then NextResult.exhausted
  else
    match materialize g.module_builder with
    | none => NextResult.aborted
    | some r => NextResult.yielded r.1 { module_builder := r.2, iters := g.iters - 1 }

/-- Pull the iterator to exhaustion, collecting the yielded modules; `none`
when some pull panics. -/
def drainAux : Nat → ModuleBuilder → Option (List VerifiedModule)
  | 0, _ => some []
  | n + 1, b =>
    match materialize b with
    | none => none
    | some r => (drainAux n r.2).map (fun ms => r.1 :: ms)

/-- The full module sequence an iterator produces. -/
def drain (g : ModuleGenerator) : Option (List VerifiedModule) :=
  drainAux g.iters g.module_builder

/-- Closed form of the fields `fieldLoop` appends: `fieldLoop` threads them
through the module, `fieldRun` lists them (`tsl` is the type-signature pool
length, constant during the loop). -/
def fieldRun (s tsl : Nat) : List Nat → RngS → List FieldDefinition × RngS
  | [], g => ([], g)
  | i :: rest, g =>
    let d := genRange 0 (u16 tsl) g
    let r := fieldRun s tsl rest d.2
    (({ struct_ := s, name := u16 i, signature := d.1 } : FieldDefinition) :: r.1, r.2)

/-- Closed form of the struct and field definitions `structLoop` appends
(`idl` the identifier-pool length and `tsl` the type-signature pool length,
both constant during the loop; `fdlen` the running field-table length). -/
def structRuns (idl tsl : Nat) : List Nat → Nat → RngS → (List StructDefinition × List FieldDefinition) × RngS
  | [], _, g => (([], []), g)
  | sidx :: rest, fdlen, g =>
    let d := genRange 1 (min idl MAX_FIELDS) g
    let fr := fieldRun sidx tsl (List.range d.1) d.2
    let r := structRuns idl tsl rest (fdlen + d.1) fr.2
    ((({ struct_handle := sidx
         field_information := { field_count := u16 d.1, fields := u16 fdlen } } : StructDefinition) :: r.1.1,
      fr.1 ++ r.1.2), r.2)

/-- The composition of the five leaf stages of `materialize_unverified`
(callee seeding, then the four pool fillers). -/
def s5 (b : ModuleBuilder) : ModuleBuilder :=
  with_bytearrays (with_user_strings (with_identifiers (with_account_addresses
    (with_callee_modules b))))

/-- Module handle 0 is the self handle `(0, 0)` and resolves, through the
address and identifier pools, to the identity `(a0, n0)`. -/
def resolvesSelfAt (m : CompiledModuleMut) (a0 : Nat) (n0 : Ident) : Prop :=
  m.module_handles.getD 0 default = ({ address := 0, name := 0 } : ModuleHandle) ∧
  selfId m = (a0, n0)

/-- The self address inserted at address-pool position 0 by the callee-module
seeding step. -/
def selfAddr0 (b : ModuleBuilder) : Nat :=
  (with_callee_modules b).module.address_pool.getD 0 0

/-- The self module name inserted at identifier-pool position 0 by the
callee-module seeding step. -/
def selfName0 (b : ModuleBuilder) : Ident :=
  (with_callee_modules b).module.identifiers.getD 0 default

/-- A concrete builder: table size 1, no hook, OS entropy 1, 2. -/
def wB1 : ModuleBuilder := ModuleBuilder.new 1 none ⟨[1, 2]⟩

/-- The concrete pipeline state of `wB1` just before freeze. -/
def wB1pre : ModuleBuilder := (preFreeze wB1).getD wB1

/-- The concrete materialization result of `wB1`. -/
def wB1res : CompiledModule × ModuleBuilder :=
  (materialize_unverified wB1).getD (default, wB1)

/-- A concrete builder with table size 0. -/
def wB0 : ModuleBuilder := ModuleBuilder.new 0 none ⟨[1]⟩

/-- The concrete materialization result of `wB0`. -/
def wB0res : CompiledModule × ModuleBuilder :=
  (materialize_unverified wB0).getD (default, wB0)

/-- A concrete exhausted generator (count 0). -/
def wG10 : ModuleGenerator := ModuleGenerator.new 1 0 ⟨[]⟩

/-- A concrete generator: table size 1, one module. -/
def wG11 : ModuleGenerator := ModuleGenerator.new 1 1 ⟨[1, 2]⟩

/-- The module sequence `wG11` yields. -/
def wG11ms : List VerifiedModule := (drain wG11).getD []

/-- The first pull of `wG11`, as a materialize result. -/
def wG11r : VerifiedModule × ModuleBuilder :=
  (materialize wG11.module_builder).getD (default, wG11.module_builder)

/-- A concrete generator: table size 3, one module. -/
def wG31 : ModuleGenerator := ModuleGenerator.new 3 1 ⟨[1, 2, 3, 4]⟩

/-- The module yielded by the first pull of `wG31`. -/
def wG31m : VerifiedModule :=
  match genNext wG31 with
  | NextResult.yielded m _ => m
  | _ => default

/-- The generator state after the first pull of `wG31`. -/
def wG31g : ModuleGenerator :=
  match genNext wG31 with
  | NextResult.yielded _ g2 => g2
  | _ => wG31

/-- The module state of the `wB1` run at the moment `with_structs` enters its
struct/field loop: the reserved struct names are appended, the loop has not
yet pushed anything, and the struct-handle table has not been assigned. -/
def c4m1 : CompiledModuleMut :=
  { (s5 wB1).module with
    identifiers := (s5 wB1).module.identifiers ++
      (List.range (s5 wB1).table_size).map Ident.sname }

/-- The struct/field loop of the `wB1` run, applied to that state. -/
def c4push : RngS × CompiledModuleMut :=
  structLoop (List.range (s5 wB1).table_size) (s5 wB1).gen c4m1

/-- The first struct definition that the loop pushes (onto `c4m1`). -/
def c4sd : StructDefinition := c4push.2.struct_defs.headD default

/-- The first struct definition of the finished `with_structs` stage of the
`wB1` run. -/
def c4w : StructDefinition :=
  (with_structs (s5 wB1)).module.struct_defs.headD default

/-- The single module generated by `wG11`. -/
def c5m : CompiledModule := wG11ms.headD default

/-- Its first field definition. -/
def c5fd : FieldDefinition := c5m.field_defs.headD default

/-- Its first struct definition. -/
def c5sd : StructDefinition := c5m.struct_defs.headD default

lemma u16_le (n : Nat) : u16 n ≤ n := Nat.mod_le n 65536

lemma u16_eq_of_lt {n : Nat} (h : n < 65536) : u16 n = n := Nat.mod_eq_of_lt h

lemma genRange_fst_lt {lo hi : Nat} (g : RngS) (h : lo < hi) : (genRange lo hi g).1 < hi := by
  have hm : (rngNext g).1 % (hi - lo) < hi - lo := Nat.mod_lt _ (by omega)
  simp only [genRange, h, if_true]
  omega

lemma genRange_fst_le {lo hi : Nat} (g : RngS) : lo ≤ (genRange lo hi g).1 := by
  simp only [genRange]
  split <;> omega

lemma genRange_eq_of_ge {lo hi : Nat} (g : RngS) (h : hi ≤ lo) : (genRange lo hi g).1 = lo := by
  simp only [genRange, Nat.not_lt.2 h, if_false]

lemma numFields_bounds (idl : Nat) (g : RngS) :
    1 ≤ (genRange 1 (min idl MAX_FIELDS) g).1 ∧
    (genRange 1 (min idl MAX_FIELDS) g).1 < MAX_FIELDS ∧
    (1 ≤ idl → (genRange 1 (min idl MAX_FIELDS) g).1 ≤ idl) := by
  rcases Nat.lt_or_ge 1 (min idl MAX_FIELDS) with h | h
  · have hlt := genRange_fst_lt g h
    have hle := @genRange_fst_le 1 (min idl MAX_FIELDS) g
    exact ⟨hle, lt_of_lt_of_le hlt (min_le_right _ _),
      fun _ => le_of_lt (lt_of_lt_of_le hlt (min_le_left _ _))⟩
  · rw [genRange_eq_of_ge g h]
    exact ⟨le_refl 1, by norm_num [MAX_FIELDS], fun h1 => h1⟩

lemma drawIdents_length (n : Nat) (g : RngS) : (drawIdents n g).1.length = n := by
  induction n generalizing g with
  | zero => rfl
  | succ k ih => simp [drawIdents, ih]

lemma drawAddrs_length (n : Nat) (o : OsS) : (drawAddrs n o).1.length = n := by
  induction n generalizing o with
  | zero => rfl
  | succ k ih => simp [drawAddrs, ih]

lemma drawShapes_length (n : Nat) (g : RngS) : (drawShapes n g).1.length = n := by
  induction n generalizing g with
  | zero => rfl
  | succ k ih => simp [drawShapes, ih]

lemma drawStructHandles_length (off : Nat) (l : List Nat) (g : RngS) :
    (drawStructHandles off l g).1.length = l.length := by
  induction l generalizing g with
  | nil => rfl
  | cons a rest ih => simp [drawStructHandles, ih]

lemma drawStructHandles_mem (off : Nat) (l : List Nat) (g : RngS) :
    ∀ sh ∈ (drawStructHandles off l g).1, sh.module = 0 ∧ ∃ i ∈ l, sh.name = u16 (i + off) := by
  induction l generalizing g with
  | nil => intro sh hsh; simp [drawStructHandles] at hsh
  | cons a rest ih =>
    intro sh hsh
    simp only [drawStructHandles, List.mem_cons] at hsh
    rcases hsh with h | h
    · subst h; exact ⟨rfl, a, List.mem_cons_self _ _, rfl⟩
    · rcases ih _ sh h with ⟨h0, i, hi, hn⟩
      exact ⟨h0, i, List.mem_cons_of_mem _ hi, hn⟩

lemma fieldRun_length (s t : Nat) (l : List Nat) (g : RngS) :
    (fieldRun s t l g).1.length = l.length := by
  induction l generalizing g with
  | nil => rfl
  | cons a rest ih => simp [fieldRun, ih]

lemma fieldRun_mem (s t : Nat) (l : List Nat) (g : RngS) :
    ∀ fd ∈ (fieldRun s t l g).1,
      fd.struct_ = s ∧ (∃ i ∈ l, fd.name = u16 i) ∧ (0 < u16 t → fd.signature < u16 t) := by
  induction l generalizing g with
  | nil => intro fd hfd; simp [fieldRun] at hfd
  | cons a rest ih =>
    intro fd hfd
    simp only [fieldRun, List.mem_cons] at hfd
    rcases hfd with h | h
    · subst h
      exact ⟨rfl, ⟨a, List.mem_cons_self _ _, rfl⟩, fun ht => genRange_fst_lt _ ht⟩
    · rcases ih _ fd h with ⟨h1, ⟨i, hi, hn⟩, h3⟩
      exact ⟨h1, ⟨i, List.mem_cons_of_mem _ hi, hn⟩, h3⟩

lemma fieldRun_getElem? (s t : Nat) (l : List Nat) (g : RngS) (j : Nat) (x : Nat)
    (hj : l[j]? = some x) :
    ∃ v, (fieldRun s t l g).1[j]? = some ({ struct_ := s, name := u16 x, signature := v } : FieldDefinition) ∧
      (0 < u16 t → v < u16 t) := by
  induction l generalizing g j with
  | nil => simp at hj
  | cons a rest ih =>
    cases j with
    | zero =>
      simp only [List.getElem?_cons_zero, Option.some.injEq] at hj
      subst hj
      exact ⟨(genRange 0 (u16 t) g).1, by simp [fieldRun], fun ht => genRange_fst_lt _ ht⟩
    | succ k =>
      simp only [List.getElem?_cons_succ] at hj
      rcases ih (genRange 0 (u16 t) g).2 k hj with ⟨v, hv, hvt⟩
      exact ⟨v, by simpa [fieldRun] using hv, hvt⟩

lemma fieldLoop_eq (s : Nat) (l : List Nat) (g : RngS) (m : CompiledModuleMut) :
    fieldLoop s l g m =
      ((fieldRun s m.type_signatures.length l g).2,
       { m with field_defs := m.field_defs ++ (fieldRun s m.type_signatures.length l g).1 }) := by
  induction l generalizing g m with
  | nil => simp [fieldLoop, fieldRun]
  | cons a rest ih =>
    show fieldLoop s rest _ _ = _
    rw [ih]
    simp [fieldRun]

lemma structLoop_eq (l : List Nat) (g : RngS) (m : CompiledModuleMut) :
    structLoop l g m =
      ((structRuns m.identifiers.length m.type_signatures.length l m.field_defs.length g).2,
       { m with
         struct_defs := m.struct_defs ++
           (structRuns m.identifiers.length m.type_signatures.length l m.field_defs.length g).1.1
         field_defs := m.field_defs ++
           (structRuns m.identifiers.length m.type_signatures.length l m.field_defs.length g).1.2 }) := by
  induction l generalizing g m with
  | nil => simp [structLoop, structRuns]
  | cons a rest ih =>
    show structLoop rest _ _ = _
    rw [fieldLoop_eq, ih]
    simp only [structRuns]
    simp [List.length_append, fieldRun_length, List.append_assoc]

lemma structRuns_sds_length (idl tsl : Nat) (l : List Nat) (fdlen : Nat) (g : RngS) :
    (structRuns idl tsl l fdlen g).1.1.length = l.length := by
  induction l generalizing fdlen g with
  | nil => rfl
  | cons a rest ih => simp [structRuns, ih]

lemma structRuns_sds_bound (idl tsl : Nat) (l : List Nat) (fdlen : Nat) (g : RngS) :
    ∀ sd ∈ (structRuns idl tsl l fdlen g).1.1,
      (∃ i ∈ l, sd.struct_handle = i) ∧
      1 ≤ sd.field_information.field_count ∧
      sd.field_information.field_count < MAX_FIELDS ∧
      sd.field_information.fields + sd.field_information.field_count ≤
        fdlen + (structRuns idl tsl l fdlen g).1.2.length := by
  induction l generalizing fdlen g with
  | nil => intro sd hsd; simp [structRuns] at hsd
  | cons a rest ih =>
    intro sd hsd
    simp only [structRuns, List.mem_cons] at hsd
    have hnf := numFields_bounds idl g
    have hmf : MAX_FIELDS = 10 := rfl
    set nf := (genRange 1 (min idl MAX_FIELDS) g).1 with hnfdef
    have hlen : (structRuns idl tsl (a :: rest) fdlen g).1.2.length =
        nf + (structRuns idl tsl rest (fdlen + nf) (fieldRun a tsl (List.range nf) (genRange 1 (min idl MAX_FIELDS) g).2).2).1.2.length := by
      simp [structRuns, fieldRun_length]
    rcases hsd with h | h
    · subst h
      refine ⟨⟨a, List.mem_cons_self _ _, rfl⟩, ?_, ?_, ?_⟩
      · show 1 ≤ u16 nf
        rw [u16_eq_of_lt (by omega : nf < 65536)]
        exact hnf.1
      · show u16 nf < MAX_FIELDS
        rw [u16_eq_of_lt (by omega : nf < 65536)]
        exact hnf.2.1
      · show u16 fdlen + u16 nf ≤ fdlen + _
        rw [hlen]
        have := u16_le fdlen
        have := u16_le nf
        omega
    · rcases ih _ _ sd h with ⟨⟨i, hi, hh⟩, h1, h2, h3⟩
      refine ⟨⟨i, List.mem_cons_of_mem _ hi, hh⟩, h1, h2, ?_⟩
      rw [hlen]
      omega

lemma structRuns_fds_bound (idl tsl : Nat) (l : List Nat) (fdlen : Nat) (g : RngS)
    (hidl : 1 ≤ idl) :
    ∀ fd ∈ (structRuns idl tsl l fdlen g).1.2,
      (∃ i ∈ l, fd.struct_ = i) ∧ fd.name < idl ∧ (0 < u16 tsl → fd.signature < u16 tsl) := by
  induction l generalizing fdlen g with
  | nil => intro fd hfd; simp [structRuns] at hfd
  | cons a rest ih =>
    intro fd hfd
    simp only [structRuns, List.mem_append] at hfd
    have hnf := numFields_bounds idl g
    rcases hfd with h | h
    · rcases fieldRun_mem _ _ _ _ fd h with ⟨h1, ⟨i, hi, hn⟩, h3⟩
      refine ⟨⟨a, List.mem_cons_self _ _, h1⟩, ?_, h3⟩
      rw [hn]
      have hint : i < (genRange 1 (min idl MAX_FIELDS) g).1 := List.mem_range.1 hi
      have := u16_le i
      have := hnf.2.2 hidl
      omega
    · rcases ih _ _ fd h with ⟨⟨i, hi, hh⟩, h2, h3⟩
      exact ⟨⟨i, List.mem_cons_of_mem _ hi, hh⟩, h2, h3⟩

lemma structRuns_located (idl tsl : Nat) (l : List Nat) (fdlen : Nat) (g : RngS)
    (hfin : fdlen + (structRuns idl tsl l fdlen g).1.2.length ≤ 65536) :
    ∀ sd ∈ (structRuns idl tsl l fdlen g).1.1,
      fdlen ≤ sd.field_information.fields ∧
      ∀ j < sd.field_information.field_count,
        ∃ fd, (structRuns idl tsl l fdlen g).1.2[(sd.field_information.fields - fdlen + j)]? = some fd ∧
          fd.name = j ∧ (0 < u16 tsl → fd.signature < u16 tsl) := by
  induction l generalizing fdlen g with
  | nil => intro sd hsd; simp [structRuns] at hsd
  | cons a rest ih =>
    intro sd hsd
    have hnf := numFields_bounds idl g
    set nf := (genRange 1 (min idl MAX_FIELDS) g).1 with hnfdef
    set g2 := (genRange 1 (min idl MAX_FIELDS) g).2 with hg2def
    set fr := fieldRun a tsl (List.range nf) g2 with hfrdef
    set sr := structRuns idl tsl rest (fdlen + nf) fr.2 with hsrdef
    have hfds : (structRuns idl tsl (a :: rest) fdlen g).1.2 = fr.1 ++ sr.1.2 := by
      simp [structRuns]
    have hfrlen : fr.1.length = nf := by rw [hfrdef]; simp [fieldRun_length]
    have hlen : (structRuns idl tsl (a :: rest) fdlen g).1.2.length = nf + sr.1.2.length := by
      rw [hfds]; simp [hfrlen]
    have hfdlen : fdlen < 65536 := by
      rw [hlen] at hfin
      omega
    simp only [structRuns, List.mem_cons] at hsd
    rcases hsd with h | h
    · subst h
      constructor
      · show fdlen ≤ u16 fdlen
        rw [u16_eq_of_lt hfdlen]
      · intro j hj
        have hcount : u16 nf = nf := u16_eq_of_lt (by have := hnf.2.1; norm_num [MAX_FIELDS] at this; omega)
        have hjnf : j < nf := by
          have : j < u16 nf := hj
          omega
        have hrange : (List.range nf)[j]? = some j := by
          simp [List.getElem?_range hjnf]
        rcases fieldRun_getElem? a tsl (List.range nf) g2 j j hrange with ⟨v, hv, hvt⟩
        refine ⟨{ struct_ := a, name := u16 j, signature := v }, ?_, ?_, hvt⟩
        · rw [hfds, u16_eq_of_lt hfdlen]
          have hidx : fdlen - fdlen + j = j := by omega
          rw [hidx, List.getElem?_append_left (by omega : j < fr.1.length)]
          exact hv
        · show u16 j = j
          exact u16_eq_of_lt (by omega)
    · have hfin2 : (fdlen + nf) + sr.1.2.length ≤ 65536 := by
        rw [hlen] at hfin
        omega
      rcases ih _ fr.2 hfin2 sd h with ⟨hge, hloc⟩
      refine ⟨le_trans (by omega) hge, ?_⟩
      intro j hj
      rcases hloc j hj with ⟨fd, hfd, hname, hsig⟩
      refine ⟨fd, ?_, hname, hsig⟩
      rw [hfds, List.getElem?_append_right (by omega : fr.1.length ≤ sd.field_information.fields - fdlen + j)]
      have harith : sd.field_information.fields - fdlen + j - fr.1.length =
          sd.field_information.fields - (fdlen + nf) + j := by
        omega
      rw [harith]
      exact hfd

lemma crossStep_some (mts : Nat) (b b' : ModuleBuilder) (h : crossStep mts b = some b') :
    ∃ g id1 sg1 hd1,
      b' = { b with gen := g, module := { b.module with
        identifiers := b.module.identifiers ++ [id1]
        function_signatures := b.module.function_signatures ++ [sg1]
        function_handles := b.module.function_handles ++ [hd1] } } := by
  simp only [crossStep] at h
  split at h
  · exact absurd h (by simp)
  · split at h
    · exact absurd h (by simp)
    · exact ⟨_, _, _, _, (Option.some.inj h).symm⟩

lemma crossLoop_some (mts n : Nat) (b b' : ModuleBuilder) (h : crossLoop mts n b = some b') :
    ∃ g i2 s2 h2,
      b' = { b with gen := g, module := { b.module with
        identifiers := b.module.identifiers ++ i2
        function_signatures := b.module.function_signatures ++ s2
        function_handles := b.module.function_handles ++ h2 } } := by
  induction n generalizing b with
  | zero =>
    refine ⟨b.gen, [], [], [], ?_⟩
    simp only [crossLoop] at h
    rw [← Option.some.inj h]
    simp
  | succ k ih =>
    simp only [crossLoop] at h
    cases hs : crossStep mts b with
    | none => rw [hs] at h; exact absurd h (by simp)
    | some b2 =>
      rw [hs] at h
      rcases crossStep_some mts b b2 hs with ⟨g1, a1, a2, a3, hb2⟩
      rcases ih b2 h with ⟨g2, i2, s2, h2, hb'⟩
      subst hb2
      refine ⟨g2, a1 :: i2, a2 :: s2, a3 :: h2, ?_⟩
      rw [hb']
      simp [List.append_assoc]

lemma with_cross_calls_some (b b' : ModuleBuilder) (h : with_cross_calls b = some b') :
    ∃ g i2 s2 h2,
      b' = { b with gen := g, module := { b.module with
        identifiers := b.module.identifiers ++ i2
        function_signatures := b.module.function_signatures ++ s2
        function_handles := b.module.function_handles ++ h2 } } := by
  simp only [with_cross_calls] at h
  split at h
  · refine ⟨b.gen, [], [], [], ?_⟩
    rw [← Option.some.inj h]
    simp
  · exact crossLoop_some _ _ _ _ h

lemma with_random_functions_some (b b' : ModuleBuilder) (h : with_random_functions b = some b') :
    ∃ g i2 s2 h2,
      b' = with_functions
        { b with gen := g, module := { b.module with
          identifiers := b.module.identifiers ++ i2
          function_signatures := b.module.function_signatures ++ s2
          function_handles := b.module.function_handles ++ h2 } }
        (drawShapes b.table_size b.gen).1 := by
  simp only [with_random_functions] at h
  cases hc : with_cross_calls { b with gen := (drawShapes b.table_size b.gen).2 } with
  | none => rw [hc] at h; exact absurd h (by simp)
  | some bm =>
    rw [hc] at h
    rcases with_cross_calls_some _ _ hc with ⟨g, i2, s2, h2, hbm⟩
    refine ⟨g, i2, s2, h2, ?_⟩
    rw [← Option.some.inj h, hbm]

lemma with_functions_module_handles (b : ModuleBuilder) (sigs : List (List SignatureToken × FunctionSignature)) :
    (with_functions b sigs).module.module_handles = b.module.module_handles := rfl

lemma with_functions_struct_handles (b : ModuleBuilder) (sigs : List (List SignatureToken × FunctionSignature)) :
    (with_functions b sigs).module.struct_handles = b.module.struct_handles := rfl

lemma with_functions_struct_defs (b : ModuleBuilder) (sigs : List (List SignatureToken × FunctionSignature)) :
    (with_functions b sigs).module.struct_defs = b.module.struct_defs := rfl

lemma with_functions_field_defs (b : ModuleBuilder) (sigs : List (List SignatureToken × FunctionSignature)) :
    (with_functions b sigs).module.field_defs = b.module.field_defs := rfl

lemma with_functions_address_pool (b : ModuleBuilder) (sigs : List (List SignatureToken × FunctionSignature)) :
    (with_functions b sigs).module.address_pool = b.module.address_pool := rfl

lemma with_functions_type_signatures (b : ModuleBuilder) (sigs : List (List SignatureToken × FunctionSignature)) :
    (with_functions b sigs).module.type_signatures = b.module.type_signatures := rfl

lemma with_functions_identifiers (b : ModuleBuilder) (sigs : List (List SignatureToken × FunctionSignature)) :
    (with_functions b sigs).module.identifiers =
      b.module.identifiers ++ (List.range sigs.length).map Ident.fname := rfl

lemma with_functions_function_handles (b : ModuleBuilder) (sigs : List (List SignatureToken × FunctionSignature)) :
    (with_functions b sigs).module.function_handles =
      (List.range sigs.length).map (fun i =>
        ({ name := u16 (i + b.module.identifiers.length)
           signature := u16 (i + b.module.function_signatures.length)
           module := 0 } : FunctionHandle)) := rfl

lemma with_functions_function_signatures (b : ModuleBuilder) (sigs : List (List SignatureToken × FunctionSignature)) :
    (with_functions b sigs).module.function_signatures =
      b.module.function_signatures ++ sigs.map (fun s => s.2) := rfl

lemma with_functions_locals_signatures (b : ModuleBuilder) (sigs : List (List SignatureToken × FunctionSignature)) :
    (with_functions b sigs).module.locals_signatures =
      b.module.locals_signatures ++ sigs.map (fun s => s.1) := rfl

lemma with_functions_function_defs_length (b : ModuleBuilder) (sigs : List (List SignatureToken × FunctionSignature)) :
    (with_functions b sigs).module.function_defs.length = sigs.length := by
  simp [with_functions, List.enum_length]

lemma with_functions_function_defs_mem (b : ModuleBuilder) (sigs : List (List SignatureToken × FunctionSignature)) :
    ∀ fd ∈ (with_functions b sigs).module.function_defs,
      ∃ i < sigs.length, fd.function = u16 i ∧ fd.code.locals = u16 i := by
  intro fd hfd
  simp only [with_functions, List.mem_map] at hfd
  rcases hfd with ⟨p, hp, hfd⟩
  have hp1 : sigs[p.1]? = some p.2 := List.mem_enum_iff_getElem?.1 hp
  have hlt : p.1 < sigs.length := (List.getElem?_eq_some.1 hp1).1
  exact ⟨p.1, hlt, by rw [← hfd], by rw [← hfd]⟩

lemma with_functions_table_size (b : ModuleBuilder) (sigs : List (List SignatureToken × FunctionSignature)) :
    (with_functions b sigs).table_size = b.table_size := rfl

lemma with_functions_known_modules (b : ModuleBuilder) (sigs : List (List SignatureToken × FunctionSignature)) :
    (with_functions b sigs).known_modules = b.known_modules := rfl

lemma preFreeze_eq (b : ModuleBuilder) :
    preFreeze b = with_random_functions (with_structs (s5 b)) := rfl

lemma s5_module_handles (b : ModuleBuilder) (hm : b.module = default_module_with_types) :
    (s5 b).module.module_handles =
      ({ address := 0, name := 0 } : ModuleHandle) ::
        (List.range b.known_modules.length).map (fun i =>
          ({ address := u16 (1 + i), name := u16 (1 + i) } : ModuleHandle)) := by
  obtain ⟨g, o, mo, ts, km, bg⟩ := b
  dsimp only at hm ⊢
  subst hm
  rfl

lemma s5_identifiers (b : ModuleBuilder) (hm : b.module = default_module_with_types) :
    (s5 b).module.identifiers =
      Ident.rand (drawChars 10 b.gen).1 ::
        (b.known_modules.map (fun p => p.1.2) ++
          (drawIdents b.table_size (drawChars 10 b.gen).2).1) := by
  obtain ⟨g, o, mo, ts, km, bg⟩ := b
  dsimp only at hm ⊢
  subst hm
  rfl

lemma s5_address_pool (b : ModuleBuilder) (hm : b.module = default_module_with_types) :
    (s5 b).module.address_pool =
      (osNext b.os).1 ::
        (b.known_modules.map (fun p => p.1.1) ++
          (drawAddrs b.table_size (osNext b.os).2).1) := by
  obtain ⟨g, o, mo, ts, km, bg⟩ := b
  dsimp only at hm ⊢
  subst hm
  rfl

lemma s5_type_signatures (b : ModuleBuilder) (hm : b.module = default_module_with_types) :
    (s5 b).module.type_signatures = default_module_with_types.type_signatures := by
  obtain ⟨g, o, mo, ts, km, bg⟩ := b
  dsimp only at hm ⊢
  subst hm
  rfl

lemma s5_empties (b : ModuleBuilder) (hm : b.module = default_module_with_types) :
    (s5 b).module.struct_handles = [] ∧ (s5 b).module.function_handles = [] ∧
    (s5 b).module.function_signatures = [] ∧ (s5 b).module.locals_signatures = [] ∧
    (s5 b).module.struct_defs = [] ∧ (s5 b).module.field_defs = [] ∧
    (s5 b).module.function_defs = [] := by
  obtain ⟨g, o, mo, ts, km, bg⟩ := b
  dsimp only at hm ⊢
  subst hm
  exact ⟨rfl, rfl, rfl, rfl, rfl, rfl, rfl⟩

lemma s5_table_size (b : ModuleBuilder) : (s5 b).table_size = b.table_size := rfl

lemma s5_known_modules (b : ModuleBuilder) : (s5 b).known_modules = b.known_modules := rfl

lemma s5_identifiers_length (b : ModuleBuilder) (hm : b.module = default_module_with_types) :
    (s5 b).module.identifiers.length = 1 + b.known_modules.length + b.table_size := by
  rw [s5_identifiers b hm]
  simp [drawIdents_length]
  omega

lemma s5_address_pool_length (b : ModuleBuilder) (hm : b.module = default_module_with_types) :
    (s5 b).module.address_pool.length = 1 + b.known_modules.length + b.table_size := by
  rw [s5_address_pool b hm]
  simp [drawAddrs_length]
  omega

lemma ws_module_handles (b : ModuleBuilder) :
    (with_structs b).module.module_handles = b.module.module_handles := by
  simp [with_structs, structLoop_eq]

lemma ws_address_pool (b : ModuleBuilder) :
    (with_structs b).module.address_pool = b.module.address_pool := by
  simp [with_structs, structLoop_eq]

lemma ws_type_signatures (b : ModuleBuilder) :
    (with_structs b).module.type_signatures = b.module.type_signatures := by
  simp [with_structs, structLoop_eq]

lemma ws_function_handles (b : ModuleBuilder) :
    (with_structs b).module.function_handles = b.module.function_handles := by
  simp [with_structs, structLoop_eq]

lemma ws_function_signatures (b : ModuleBuilder) :
    (with_structs b).module.function_signatures = b.module.function_signatures := by
  simp [with_structs, structLoop_eq]

lemma ws_locals_signatures (b : ModuleBuilder) :
    (with_structs b).module.locals_signatures = b.module.locals_signatures := by
  simp [with_structs, structLoop_eq]

lemma ws_function_defs (b : ModuleBuilder) :
    (with_structs b).module.function_defs = b.module.function_defs := by
  simp [with_structs, structLoop_eq]

lemma ws_identifiers (b : ModuleBuilder) :
    (with_structs b).module.identifiers =
      b.module.identifiers ++ (List.range b.table_size).map Ident.sname := by
  simp [with_structs, structLoop_eq]

lemma ws_struct_defs (b : ModuleBuilder) :
    (with_structs b).module.struct_defs =
      b.module.struct_defs ++
        (structRuns (b.module.identifiers.length + b.table_size)
          b.module.type_signatures.length (List.range b.table_size)
          b.module.field_defs.length b.gen).1.1 := by
  simp [with_structs, structLoop_eq, List.length_append, List.length_map, List.length_range]

lemma ws_field_defs (b : ModuleBuilder) :
    (with_structs b).module.field_defs =
      b.module.field_defs ++
        (structRuns (b.module.identifiers.length + b.table_size)
          b.module.type_signatures.length (List.range b.table_size)
          b.module.field_defs.length b.gen).1.2 := by
  simp [with_structs, structLoop_eq, List.length_append, List.length_map, List.length_range]

lemma ws_struct_handles (b : ModuleBuilder) :
    (with_structs b).module.struct_handles =
      (drawStructHandles (u16 b.module.identifiers.length) (List.range b.table_size)
        (structRuns (b.module.identifiers.length + b.table_size)
          b.module.type_signatures.length (List.range b.table_size)
          b.module.field_defs.length b.gen).2).1 := by
  simp [with_structs, structLoop_eq, List.length_append, List.length_map, List.length_range]

lemma ws_table_size (b : ModuleBuilder) : (with_structs b).table_size = b.table_size := by
  simp [with_structs, structLoop_eq]

lemma ws_known_modules (b : ModuleBuilder) : (with_structs b).known_modules = b.known_modules := by
  simp [with_structs, structLoop_eq]

lemma ws_gen (b : ModuleBuilder) :
    (with_structs b).gen =
      (drawStructHandles (u16 b.module.identifiers.length) (List.range b.table_size)
        (structRuns (b.module.identifiers.length + b.table_size)
          b.module.type_signatures.length (List.range b.table_size)
          b.module.field_defs.length b.gen).2).2 := by
  simp [with_structs, structLoop_eq, List.length_append, List.length_map, List.length_range]

lemma preFreeze_bounds (b b' : ModuleBuilder) (hm : b.module = default_module_with_types)
    (h : preFreeze b = some b') : boundsCheck b'.module = true := by
  rw [preFreeze_eq] at h
  rcases with_random_functions_some _ _ h with ⟨g, i2, s2, h2, hb'⟩
  subst hb'
  have hids5 : (s5 b).module.identifiers.length =
      1 + b.known_modules.length + b.table_size := s5_identifiers_length b hm
  have haddr5 : (s5 b).module.address_pool.length =
      1 + b.known_modules.length + b.table_size := s5_address_pool_length b hm
  have hts5 : (s5 b).module.type_signatures.length = 5 := by
    rw [s5_type_signatures b hm]
    rfl
  have h55 : 0 < u16 (s5 b).module.type_signatures.length := by
    rw [hts5]
    decide
  have h56 : u16 (s5 b).module.type_signatures.length = 5 := by
    rw [hts5]
    rfl
  simp only [boundsCheck, Bool.and_eq_true, List.all_eq_true, decide_eq_true_eq]
  simp only [with_functions_module_handles, with_functions_struct_handles,
    with_functions_struct_defs, with_functions_field_defs, with_functions_address_pool,
    with_functions_type_signatures, with_functions_identifiers,
    with_functions_function_handles, with_functions_function_signatures,
    with_functions_locals_signatures]
  simp only [ws_module_handles, ws_address_pool, ws_type_signatures, ws_function_handles,
    ws_function_signatures, ws_locals_signatures, ws_identifiers, ws_struct_defs,
    ws_field_defs, ws_struct_handles, ws_table_size, s5_table_size,
    (s5_empties b hm).1, (s5_empties b hm).2.1, (s5_empties b hm).2.2.1,
    (s5_empties b hm).2.2.2.1, (s5_empties b hm).2.2.2.2.1,
    (s5_empties b hm).2.2.2.2.2.1, (s5_empties b hm).2.2.2.2.2.2,
    List.length_nil, List.nil_append, List.length_append, List.length_map,
    List.length_range, drawShapes_length]
  refine ⟨⟨⟨⟨⟨?_, ?_⟩, ?_⟩, ?_⟩, ?_⟩, ?_⟩
  · -- module handles
    intro mh hmh
    rw [s5_module_handles b hm] at hmh
    rcases List.mem_cons.1 hmh with rfl | hmem
    · exact ⟨by dsimp only; omega, by dsimp only; omega⟩
    · rcases List.mem_map.1 hmem with ⟨i, hi, rfl⟩
      have hiK : i < b.known_modules.length := List.mem_range.1 hi
      have hle := u16_le (1 + i)
      exact ⟨by dsimp only; omega, by dsimp only; omega⟩
  · -- struct handles
    intro sh hsh
    rcases drawStructHandles_mem _ _ _ sh hsh with ⟨hmod, i, hi, hname⟩
    have hits : i < b.table_size := List.mem_range.1 hi
    have h1 := u16_le (i + u16 (s5 b).module.identifiers.length)
    have h2 := u16_le (s5 b).module.identifiers.length
    rw [s5_module_handles b hm, hmod, hname]
    constructor
    · simp only [List.length_cons, List.length_map, List.length_range]
      omega
    · omega
  · -- struct definitions
    intro sd hsd
    rcases structRuns_sds_bound _ _ _ _ _ sd hsd with ⟨⟨i, hi, hhandle⟩, hc1, hc2, hc3⟩
    have hits : i < b.table_size := List.mem_range.1 hi
    constructor
    · rw [hhandle, drawStructHandles_length]
      simpa using hits
    · simpa using hc3
  · -- field definitions
    intro fd hfd
    have hidl : 1 ≤ (s5 b).module.identifiers.length + b.table_size := by omega
    rcases structRuns_fds_bound _ _ _ _ _ hidl fd hfd with ⟨⟨i, hi, hstr⟩, hname, hsig⟩
    have hits : i < b.table_size := List.mem_range.1 hi
    have hsig2 := hsig h55
    refine ⟨⟨?_, ?_⟩, ?_⟩
    · rw [hstr, drawStructHandles_length]
      simpa using hits
    · omega
    · omega
  · -- function handles
    intro fh hfh
    rcases List.mem_map.1 hfh with ⟨i, hi, rfl⟩
    have hits : i < b.table_size := List.mem_range.1 hi
    have h1 := u16_le (i + ((s5 b).module.identifiers.length + b.table_size + i2.length))
    have h2 := u16_le (i + s2.length)
    refine ⟨⟨?_, ?_⟩, ?_⟩
    · rw [s5_module_handles b hm]
      dsimp only
      simp only [List.length_cons, List.length_map, List.length_range]
      omega
    · dsimp only
      omega
    · dsimp only
      omega
  · -- function definitions
    intro fd hfd
    rcases with_functions_function_defs_mem _ _ fd hfd with ⟨i, hilt, hfun, hloc⟩
    have hu := u16_le i
    rw [drawShapes_length] at hilt
    constructor
    · rw [hfun]
      omega
    · rw [hloc]
      omega

lemma materialize_unverified_eq (b b' : ModuleBuilder) (hm : b.module = default_module_with_types)
    (h : preFreeze b = some b') :
    materialize_unverified b =
      some (b'.module,
        { b' with module := default_module_with_types
                  known_modules := insertKnown (selfId b'.module) b'.module b'.known_modules }) := by
  have hb := preFreeze_bounds b b' hm h
  simp only [materialize_unverified, h, freeze, hb, if_true]

lemma materialize_unverified_isSome (b b' : ModuleBuilder)
    (hm : b.module = default_module_with_types) (h : preFreeze b = some b') :
    (materialize_unverified b).isSome := by
  rw [materialize_unverified_eq b b' hm h]
  rfl

lemma materialize_unverified_some_bounds (b : ModuleBuilder) (m : CompiledModule)
    (b'' : ModuleBuilder) (h : materialize_unverified b = some (m, b'')) :
    boundsCheck m = true := by
  simp only [materialize_unverified] at h
  cases hpf : preFreeze b with
  | none => rw [hpf] at h; exact absurd h (by simp)
  | some b7 =>
    rw [hpf] at h
    simp only [freeze] at h
    cases hbc : boundsCheck b7.module with
    | false => rw [hbc] at h; simp at h
    | true =>
      rw [hbc] at h
      simp only [if_pos] at h
      have h1 : b7.module = m := congrArg Prod.fst (Option.some.inj h)
      exact h1 ▸ hbc

lemma drainAux_length (n : Nat) (b : ModuleBuilder) (ms : List VerifiedModule)
    (h : drainAux n b = some ms) : ms.length = n := by
  induction n generalizing b ms with
  | zero =>
    simp only [drainAux] at h
    rw [← Option.some.inj h]
    rfl
  | succ k ih =>
    simp only [drainAux] at h
    cases hmat : materialize b with
    | none => rw [hmat] at h; exact absurd h (by simp)
    | some r =>
      rw [hmat] at h
      rcases Option.map_eq_some'.1 h with ⟨ms', hms', rfl⟩
      simp [ih _ _ hms']

lemma with_cross_calls_zero (b : ModuleBuilder) (hts : b.table_size = 0) :
    with_cross_calls b = some b := by
  simp only [with_cross_calls, hts]
  split
  · rfl
  · simp [crossLoop]

lemma with_random_functions_zero (c : ModuleBuilder) (hts : c.table_size = 0) :
    with_random_functions c = some (with_functions c []) := by
  obtain ⟨g, o, mo, ts, km, bg⟩ := c
  dsimp only at hts
  subst hts
  simp only [with_random_functions, drawShapes]
  rw [with_cross_calls_zero _ rfl]

lemma preFreeze_zero (b : ModuleBuilder) (hts : b.table_size = 0) :
    preFreeze b = some (with_functions (with_structs (s5 b)) []) := by
  rw [preFreeze_eq]
  exact with_random_functions_zero _ (by rw [ws_table_size, s5_table_size, hts])

lemma getD_zero_of_cons {α : Type} {l : List α} {x : α} {t : List α} (h : l = x :: t)
    (l2 : List α) (d : α) : (l ++ l2).getD 0 d = x := by
  subst h
  rfl

lemma s5_module_handles_cons (b : ModuleBuilder) :
    ∃ t, (s5 b).module.module_handles = ({ address := 0, name := 0 } : ModuleHandle) :: t :=
  ⟨_, rfl⟩

lemma s5_identifiers_cons (b : ModuleBuilder) :
    ∃ t, (s5 b).module.identifiers = selfName0 b :: t :=
  ⟨_, rfl⟩

lemma s5_address_pool_cons (b : ModuleBuilder) :
    ∃ t, (s5 b).module.address_pool = selfAddr0 b :: t :=
  ⟨_, rfl⟩

lemma preFreeze_known (b b7 : ModuleBuilder) (h : preFreeze b = some b7) :
    b7.known_modules = b.known_modules := by
  rw [preFreeze_eq] at h
  rcases with_random_functions_some _ _ h with ⟨g, i2, s2, h2, rfl⟩
  rw [with_functions_known_modules]
  show (with_structs (s5 b)).known_modules = b.known_modules
  rw [ws_known_modules, s5_known_modules]

lemma materialize_unverified_some_spec (b : ModuleBuilder) (m : CompiledModule)
    (b'' : ModuleBuilder) (h : materialize_unverified b = some (m, b'')) :
    ∃ b7, preFreeze b = some b7 ∧ m = b7.module ∧
      b'' = { b7 with module := default_module_with_types
                      known_modules := insertKnown (selfId b7.module) b7.module b7.known_modules } := by
  simp only [materialize_unverified] at h
  cases hpf : preFreeze b with
  | none => rw [hpf] at h; exact absurd h (by simp)
  | some b7 =>
    rw [hpf] at h
    simp only [freeze] at h
    cases hbc : boundsCheck b7.module with
    | false => rw [hbc] at h; simp at h
    | true =>
      rw [hbc] at h
      simp only [if_pos] at h
      have hp := Option.some.inj h
      exact ⟨b7, rfl, (congrArg Prod.fst hp).symm, (congrArg Prod.snd hp).symm⟩

lemma cons_append_cons {α : Type} {l : List α} {x : α} {t : List α} (h : l = x :: t)
    (l2 : List α) : ∃ u, l ++ l2 = x :: u :=
  ⟨t ++ l2, by rw [h]; rfl⟩

lemma resolvesSelfAt_of_parts (m : CompiledModuleMut) (a0 : Nat) (n0 : Ident)
    (hmh : ∃ t, m.module_handles = ({ address := 0, name := 0 } : ModuleHandle) :: t)
    (had : ∃ t, m.address_pool = a0 :: t)
    (hid : ∃ t, m.identifiers = n0 :: t) :
    resolvesSelfAt m a0 n0 := by
  obtain ⟨t1, h1⟩ := hmh
  obtain ⟨t2, h2⟩ := had
  obtain ⟨t3, h3⟩ := hid
  constructor
  · rw [h1]
    rfl
  · simp [selfId, h1, h2, h3]

lemma ws_module_handles_cons (b : ModuleBuilder) :
    ∃ t, (with_structs (s5 b)).module.module_handles =
      ({ address := 0, name := 0 } : ModuleHandle) :: t := by
  rw [ws_module_handles]
  exact s5_module_handles_cons b

lemma ws_identifiers_cons (b : ModuleBuilder) :
    ∃ t, (with_structs (s5 b)).module.identifiers = selfName0 b :: t := by
  rw [ws_identifiers]
  exact cons_append_cons (s5_identifiers_cons b).choose_spec _

lemma ws_address_pool_cons (b : ModuleBuilder) :
    ∃ t, (with_structs (s5 b)).module.address_pool = selfAddr0 b :: t := by
  rw [ws_address_pool]
  exact s5_address_pool_cons b

lemma preFreeze_resolvesSelf (b b7 : ModuleBuilder) (h : preFreeze b = some b7) :
    resolvesSelfAt b7.module (selfAddr0 b) (selfName0 b) := by
  rw [preFreeze_eq] at h
  rcases with_random_functions_some _ _ h with ⟨g, i2, s2, h2, rfl⟩
  refine resolvesSelfAt_of_parts _ _ _ ?_ ?_ ?_
  · obtain ⟨t, ht⟩ := ws_module_handles_cons b
    refine ⟨t, ?_⟩
    rw [with_functions_module_handles]
    exact ht
  · obtain ⟨t, ht⟩ := ws_address_pool_cons b
    refine ⟨t, ?_⟩
    rw [with_functions_address_pool]
    exact ht
  · obtain ⟨t, ht⟩ := ws_identifiers_cons b
    obtain ⟨u, hu⟩ := cons_append_cons ht i2
    rw [with_functions_identifiers]
    exact cons_append_cons hu _

lemma genNext_yielded (g : ModuleGenerator) (m : VerifiedModule) (g2 : ModuleGenerator)
    (h : genNext g = NextResult.yielded m g2) :
    materialize g.module_builder = some (m, g2.module_builder) := by
  unfold genNext at h
  split at h
  · exact absurd h (by simp)
  · cases hmat : materialize g.module_builder with
    | none => rw [hmat] at h; exact absurd h (by simp)
    | some r =>
      rw [hmat] at h
      injection h with h1 h2
      subst h1
      subst h2
      rfl

lemma materialized_shape (b b7 : ModuleBuilder) (hm : b.module = default_module_with_types)
    (hpf : preFreeze b = some b7) :
    b7.module.struct_handles.length = b.table_size ∧
    b7.module.struct_defs.length = b.table_size ∧
    (∀ sd ∈ b7.module.struct_defs, 1 ≤ sd.field_information.field_count ∧
      sd.field_information.field_count < MAX_FIELDS) ∧
    b7.module.function_handles.length = b.table_size ∧
    b7.module.function_defs.length = b.table_size ∧
    (∀ fh ∈ b7.module.function_handles, fh.module = 0) := by
  rw [preFreeze_eq] at hpf
  rcases with_random_functions_some _ _ hpf with ⟨g, i2, s2, h2, rfl⟩
  refine ⟨?_, ?_, ?_, ?_, ?_, ?_⟩
  · rw [with_functions_struct_handles]
    show (with_structs (s5 b)).module.struct_handles.length = b.table_size
    rw [ws_struct_handles, drawStructHandles_length, List.length_range, s5_table_size]
  · rw [with_functions_struct_defs]
    show (with_structs (s5 b)).module.struct_defs.length = b.table_size
    rw [ws_struct_defs, (s5_empties b hm).2.2.2.2.1, List.nil_append,
      structRuns_sds_length, List.length_range, s5_table_size]
  · intro sd hsd
    rw [with_functions_struct_defs] at hsd
    have hsd2 : sd ∈ (with_structs (s5 b)).module.struct_defs := hsd
    simp only [ws_struct_defs, (s5_empties b hm).2.2.2.2.1, List.nil_append] at hsd2
    rcases structRuns_sds_bound _ _ _ _ _ sd hsd2 with ⟨_, hc1, hc2, _⟩
    exact ⟨hc1, hc2⟩
  · rw [with_functions_function_handles]
    simp only [List.length_map, List.length_range, drawShapes_length, ws_table_size,
      s5_table_size]
  · rw [with_functions_function_defs_length, drawShapes_length, ws_table_size, s5_table_size]
  · intro fh hfh
    rw [with_functions_function_handles] at hfh
    rcases List.mem_map.1 hfh with ⟨i, _, rfl⟩
    rfl

/-- Claim C1, counterexample: two generation runs constructed with the same
(hardcoded) seed, the same table size (0) and the same (absent) body-synthesis
hook produce different modules when the ambient operating-system entropy
consumed by `AccountAddress::random()` differs — the address that ends up in
the module's address pool is not drawn from the single deterministic seeded
stream, refuting the claim as stated. -/
theorem C1_counterexample :
    drain (ModuleGenerator.new 0 1 ⟨[1]⟩) ≠ drain (ModuleGenerator.new 0 1 ⟨[2]⟩) := by
  decide

/-- Claim C1, amended: all randomness except account addresses is drawn from
the seeded stream; two runs with the same seed, table size, and hook that also
observe the same OS entropy (the input of `AccountAddress::random()`, which
does not read the seeded generator) produce byte-identical module sequences. -/
theorem C1_amended_theorem (ts n : Nat) (os os' : OsS) (h : os = os') :
    drain (ModuleGenerator.new ts n os) = drain (ModuleGenerator.new ts n os') := by
  rw [h]

/-- Witness for the amended C1 at a concrete input. -/
theorem C1_witness :
    drain (ModuleGenerator.new 0 1 ⟨[1]⟩) = drain (ModuleGenerator.new 0 1 ⟨[1]⟩) :=
  C1_amended_theorem 0 1 ⟨[1]⟩ ⟨[1]⟩ rfl

/-- Claim C2, evaluation at the failing input: in a 2-module universe with
table size 1, both materialized modules end up with exactly one function
handle and zero handles with a nonzero module-handle component, because
`with_functions` assigns (overwrites) the function-handle table, discarding
the handles `with_cross_calls` pushed; the second module's orphaned copied
signature (signature pool of length 2 against 1 handle) shows the weaving ran
and was then clobbered. -/
theorem C2_failing_eval :
    (drain (ModuleGenerator.new 1 2 ⟨[1, 101, 201, 301]⟩)).map (fun ms => ms.map (fun m =>
      (m.function_handles.length,
       (m.function_handles.filter (fun h => h.module ≠ 0)).length,
       m.function_signatures.length))) =
    some [(1, 0, 1), (1, 0, 2)] := by
  decide

/-- Claim C3: whenever the builder starts a materialize call from the freshly
seeded default module (as it always does), if the pipeline before freeze
completes then the assembled module passes the bounds check, so the freeze
step at the end of construction never fails; and every module actually
returned by `materialize_unverified` passes the bounds check. -/
theorem C3_theorem (b : ModuleBuilder) (hm : b.module = default_module_with_types) :
    (∀ b', preFreeze b = some b' →
      boundsCheck b'.module = true ∧ (materialize_unverified b).isSome) ∧
    (∀ m b'', materialize_unverified b = some (m, b'') → boundsCheck m = true) := by
  refine ⟨?_, ?_⟩
  · intro b' h
    exact ⟨preFreeze_bounds b b' hm h, materialize_unverified_isSome b b' hm h⟩
  · intro m b'' h
    exact materialize_unverified_some_bounds b m b'' h

/-- Witness for C3 at a concrete builder. -/
theorem C3_witness :
    boundsCheck wB1pre.module = true ∧ (materialize_unverified wB1).isSome :=
  (C3_theorem wB1 rfl).1 wB1pre rfl

/-- Claim C10: every `ModuleBuilder` is constructed with the hardcoded
all-zero 32-byte seed; the constructor takes no seed parameter, so the seeded
generator is identical across all builder instances, whatever the table size,
hook, or ambient OS entropy. -/
theorem C10_theorem (ts ts' : Nat) (hook hook' : Option BytecodeGen) (os os' : OsS) :
    (ModuleBuilder.new ts hook os).gen = RngS.fromSeed zeroSeed ∧
    (ModuleBuilder.new ts hook os).gen = (ModuleBuilder.new ts' hook' os').gen :=
  ⟨rfl, rfl⟩

/-- Claim C4, counterexample: at the concrete reachable state of the `wB1`
run entering the struct/field loop (`c4m1`), the first struct definition is
pushed storing struct-handle index 0 and field-run start 0 while the
struct-handle table and the field-definition table are both still empty — a
forward reference, not strictly below the target tables' lengths at the
moment the reference is written. -/
theorem C4_counterexample :
    c4m1.struct_defs = [] ∧
    c4m1.struct_handles.length = 0 ∧ c4m1.field_defs.length = 0 ∧
    c4push.2.struct_defs.headD default = c4sd ∧
    c4sd.struct_handle = 0 ∧ c4sd.field_information.fields = 0 ∧
    1 ≤ c4sd.field_information.field_count ∧
    ¬ c4sd.struct_handle < c4m1.struct_handles.length ∧
    ¬ c4sd.field_information.fields < c4m1.field_defs.length ∧
    (with_structs (s5 wB1)).module.struct_defs = c4push.2.struct_defs := by
  decide

/-- Claim C4, amended: the no-forward-reference reading is false — the
struct-definition entries are forward references at the moment they are
written (see the counterexample; the function-handle and field-definition
writes of the source are likewise ahead of their targets).  What holds is
stage-end validity: by the end of `with_structs`, every struct definition's
handle index and field run, and every field definition's indices, are
strictly within their target tables' lengths. -/
theorem C4_amended_theorem (b : ModuleBuilder)
    (h1 : b.module.struct_defs = []) (h2 : b.module.field_defs = [])
    (h3 : 1 ≤ b.module.identifiers.length)
    (h4 : b.module.type_signatures.length = 5) :
    (∀ sd ∈ (with_structs b).module.struct_defs,
      sd.struct_handle < (with_structs b).module.struct_handles.length ∧
      sd.field_information.fields + sd.field_information.field_count ≤
        (with_structs b).module.field_defs.length) ∧
    (∀ fd ∈ (with_structs b).module.field_defs,
      fd.struct_ < (with_structs b).module.struct_handles.length ∧
      fd.name < (with_structs b).module.identifiers.length ∧
      fd.signature < (with_structs b).module.type_signatures.length) := by
  have h55 : 0 < u16 b.module.type_signatures.length := by
    rw [h4]
    decide
  have h56 : u16 b.module.type_signatures.length = 5 := by
    rw [h4]
    rfl
  constructor
  · intro sd hsd
    simp only [ws_struct_defs, h1, h2, List.nil_append, List.length_nil] at hsd
    rcases structRuns_sds_bound _ _ _ _ _ sd hsd with ⟨⟨i, hi, hhandle⟩, hc1, hc2, hc3⟩
    constructor
    · rw [hhandle, ws_struct_handles, drawStructHandles_length, List.length_range]
      exact List.mem_range.1 hi
    · simp only [ws_field_defs, h2, List.nil_append, List.length_nil]
      simpa using hc3
  · intro fd hfd
    simp only [ws_field_defs, h2, List.nil_append, List.length_nil] at hfd
    have hidl : 1 ≤ b.module.identifiers.length + b.table_size := by omega
    rcases structRuns_fds_bound _ _ _ _ _ hidl fd hfd with ⟨⟨i, hi, hstr⟩, hname, hsig⟩
    refine ⟨?_, ?_, ?_⟩
    · rw [hstr, ws_struct_handles, drawStructHandles_length, List.length_range]
      exact List.mem_range.1 hi
    · rw [ws_identifiers]
      simp only [List.length_append, List.length_map, List.length_range]
      omega
    · rw [ws_type_signatures]
      have := hsig h55
      omega

/-- Witness for the amended C4 at the concrete struct stage of the `wB1`
run. -/
theorem C4_witness :
    c4w.struct_handle < (with_structs (s5 wB1)).module.struct_handles.length ∧
    c4w.field_information.fields + c4w.field_information.field_count ≤
      (with_structs (s5 wB1)).module.field_defs.length :=
  (C4_amended_theorem (s5 wB1) (by decide) (by decide) (by decide) (by decide)).1
    c4w (by decide)

/-- Claim C5, counterexample: in the single module of the `wG11` run, the
first field definition carries name index 0 — the raw field ordinal, pointing
at the self module name (a random-character identifier), not at the reserved
offset-adjusted struct name, which sits at identifier index
`u16 (s5 wB1).module.identifiers.length = 2`. -/
theorem C5_counterexample :
    drain (ModuleGenerator.new 1 1 ⟨[1, 2]⟩) = some [c5m] ∧
    c5m.field_defs.headD default = c5fd ∧
    c5fd.name = 0 ∧
    u16 (s5 wB1).module.identifiers.length = 2 ∧
    c5fd.name ≠ 2 ∧
    c5m.identifiers.getD c5fd.name default ≠ Ident.sname 0 ∧
    c5m.identifiers.getD 2 default = Ident.sname 0 ∧
    c5sd.field_information.fields = 0 ∧ 1 ≤ c5sd.field_information.field_count := by
  decide

/-- Claim C5, amended: in every materialized module, the `j`-th field of each
struct carries the raw name index `j` (not offset-adjusted to the reserved
struct names), and a type index drawn from the pre-seeded type-signature
pool; stated for field tables within the `u16` range, where the stored field
run start is untruncated. -/
theorem C5_amended_theorem (b b' : ModuleBuilder)
    (hm : b.module = default_module_with_types) (h : preFreeze b = some b')
    (hfin : b'.module.field_defs.length ≤ 65536) :
    ∀ sd ∈ b'.module.struct_defs, ∀ j < sd.field_information.field_count,
      ∃ fd, b'.module.field_defs[(sd.field_information.fields + j)]? = some fd ∧
        fd.name = j ∧ fd.signature < b'.module.type_signatures.length := by
  rw [preFreeze_eq] at h
  rcases with_random_functions_some _ _ h with ⟨g, i2, s2, h2, rfl⟩
  have hts5 : (s5 b).module.type_signatures.length = 5 := by
    rw [s5_type_signatures b hm]
    rfl
  have h55 : 0 < u16 (s5 b).module.type_signatures.length := by
    rw [hts5]
    decide
  have h56 : u16 (s5 b).module.type_signatures.length = 5 := by
    rw [hts5]
    rfl
  intro sd hsd j hj
  rw [with_functions_struct_defs] at hsd
  rw [with_functions_field_defs] at hfin ⊢
  rw [with_functions_type_signatures]
  have hsd2 : sd ∈ (with_structs (s5 b)).module.struct_defs := hsd
  have hfin2 : (with_structs (s5 b)).module.field_defs.length ≤ 65536 := hfin
  show ∃ fd, (with_structs (s5 b)).module.field_defs[(sd.field_information.fields + j)]? = some fd ∧
    fd.name = j ∧ fd.signature < (with_structs (s5 b)).module.type_signatures.length
  simp only [ws_struct_defs, (s5_empties b hm).2.2.2.2.1,
    (s5_empties b hm).2.2.2.2.2.1, List.nil_append, List.length_nil] at hsd2
  simp only [ws_field_defs, (s5_empties b hm).2.2.2.2.2.1, List.nil_append,
    List.length_nil] at hfin2 ⊢
  rw [ws_type_signatures]
  have hfin3 : 0 + (structRuns ((s5 b).module.identifiers.length + (s5 b).table_size)
      (s5 b).module.type_signatures.length (List.range (s5 b).table_size) 0
      (s5 b).gen).1.2.length ≤ 65536 := by
    simpa using hfin2
  rcases structRuns_located _ _ _ _ _ hfin3 sd hsd2 with ⟨hge, hloc⟩
  rcases hloc j hj with ⟨fd, hfd, hname, hsig⟩
  refine ⟨fd, ?_, hname, ?_⟩
  · simpa using hfd
  · have := hsig h55
    omega

/-- Witness for the amended C5 at the first struct of the concrete `wB1`
run. -/
theorem C5_witness :
    ∃ fd, wB1pre.module.field_defs[(
        (wB1pre.module.struct_defs.headD default).field_information.fields + 0)]? = some fd ∧
      fd.name = 0 ∧ fd.signature < wB1pre.module.type_signatures.length :=
  C5_amended_theorem wB1 wB1pre rfl rfl (by decide)
    (wB1pre.module.struct_defs.headD default) (by decide) 0 (by decide)

/-- Claim C6: after the callee-module seeding step, at every later stage
boundary of one materialize call, module-handle index 0 is the self handle
`(0, 0)` and resolves through the pools to the identity inserted by the
seeding step; the frozen module still resolves it to that identity and is
registered in the known-modules registry under exactly that identity. -/
theorem C6_theorem (b : ModuleBuilder) :
    resolvesSelfAt (with_callee_modules b).module (selfAddr0 b) (selfName0 b) ∧
    resolvesSelfAt (with_account_addresses (with_callee_modules b)).module
      (selfAddr0 b) (selfName0 b) ∧
    resolvesSelfAt (with_identifiers (with_account_addresses (with_callee_modules b))).module
      (selfAddr0 b) (selfName0 b) ∧
    resolvesSelfAt (with_user_strings (with_identifiers (with_account_addresses
      (with_callee_modules b)))).module (selfAddr0 b) (selfName0 b) ∧
    resolvesSelfAt (s5 b).module (selfAddr0 b) (selfName0 b) ∧
    resolvesSelfAt (with_structs (s5 b)).module (selfAddr0 b) (selfName0 b) ∧
    (∀ b7, preFreeze b = some b7 → resolvesSelfAt b7.module (selfAddr0 b) (selfName0 b)) ∧
    (∀ m b'', materialize_unverified b = some (m, b'') →
      resolvesSelfAt m (selfAddr0 b) (selfName0 b) ∧
      b''.known_modules = insertKnown (selfAddr0 b, selfName0 b) m b.known_modules) := by
  refine ⟨?_, ?_, ?_, ?_, ?_, ?_, ?_, ?_⟩
  · exact resolvesSelfAt_of_parts _ _ _ ⟨_, rfl⟩ ⟨_, rfl⟩ ⟨_, rfl⟩
  · exact resolvesSelfAt_of_parts _ _ _ ⟨_, rfl⟩ ⟨_, rfl⟩ ⟨_, rfl⟩
  · exact resolvesSelfAt_of_parts _ _ _ ⟨_, rfl⟩ ⟨_, rfl⟩ ⟨_, rfl⟩
  · exact resolvesSelfAt_of_parts _ _ _ ⟨_, rfl⟩ ⟨_, rfl⟩ ⟨_, rfl⟩
  · exact resolvesSelfAt_of_parts _ _ _ (s5_module_handles_cons b) (s5_address_pool_cons b)
      (s5_identifiers_cons b)
  · exact resolvesSelfAt_of_parts _ _ _ (ws_module_handles_cons b) (ws_address_pool_cons b)
      (ws_identifiers_cons b)
  · exact fun b7 h => preFreeze_resolvesSelf b b7 h
  · intro m b'' hmat
    rcases materialize_unverified_some_spec b m b'' hmat with ⟨b7, hpf, rfl, rfl⟩
    have hres := preFreeze_resolvesSelf b b7 hpf
    refine ⟨hres, ?_⟩
    show insertKnown (selfId b7.module) b7.module b7.known_modules =
      insertKnown (selfAddr0 b, selfName0 b) b7.module b.known_modules
    rw [hres.2, preFreeze_known b b7 hpf]

/-- Witness for C6 at the concrete builder `wB1`. -/
theorem C6_witness :
    resolvesSelfAt wB1res.1 (selfAddr0 wB1) (selfName0 wB1) ∧
    wB1res.2.known_modules =
      insertKnown (selfAddr0 wB1, selfName0 wB1) wB1res.1 wB1.known_modules :=
  (C6_theorem wB1).2.2.2.2.2.2.2 wB1res.1 wB1res.2 rfl

/-- Claim C7: the universe iterator at count 0 signals end-of-sequence (and,
its state being unchanged, stays exhausted); each pull with count > 0
decrements the count and yields the materialized module; and a full drain of
the iterator yields exactly `iters` modules. -/
theorem C7_theorem (g : ModuleGenerator) :
    (g.iters = 0 → genNext g = NextResult.exhausted) ∧
    (∀ m b', g.iters ≠ 0 → materialize g.module_builder = some (m, b') →
      genNext g = NextResult.yielded m { module_builder := b', iters := g.iters - 1 }) ∧
    (∀ ms, drain g = some ms → ms.length = g.iters) := by
  refine ⟨?_, ?_, ?_⟩
  · intro h
    simp [genNext, h]
  · intro m b' h hmat
    simp [genNext, h, hmat]
  · intro ms h
    exact drainAux_length _ _ _ h

/-- Witness for C7: an exhausted pull, a yielding pull, and an exact-length
drain, all at concrete generators. -/
theorem C7_witness :
    genNext wG10 = NextResult.exhausted ∧
    genNext wG11 = NextResult.yielded wG11r.1 { module_builder := wG11r.2, iters := 0 } ∧
    drain wG11 = some wG11ms ∧ wG11ms.length = 1 :=
  ⟨(C7_theorem wG10).1 rfl,
   (C7_theorem wG11).2.1 wG11r.1 wG11r.2 (by decide) rfl,
   rfl,
   (C7_theorem wG11).2.2 wG11ms rfl⟩

/-- Claim C8: a requested table size of zero degrades gracefully — the
materialize call completes without aborting and the module has no structs, no
functions, and no cross-call handles; a requested universe size of zero
yields the empty sequence. -/
theorem C8_theorem (b : ModuleBuilder) (hm : b.module = default_module_with_types)
    (hts : b.table_size = 0) :
    ((materialize_unverified b).isSome ∧
     ∀ m b'', materialize_unverified b = some (m, b'') →
       m.function_handles = [] ∧ m.function_defs = [] ∧
       m.struct_handles = [] ∧ m.struct_defs = []) ∧
    (∀ ts os, drain (ModuleGenerator.new ts 0 os) = some [] ∧
      genNext (ModuleGenerator.new ts 0 os) = NextResult.exhausted) := by
  have hpf := preFreeze_zero b hts
  refine ⟨⟨materialize_unverified_isSome b _ hm hpf, ?_⟩, ?_⟩
  · intro m b'' hmat
    rcases materialize_unverified_some_spec b m b'' hmat with ⟨b7, hpf2, rfl, rfl⟩
    have hb7 : b7 = with_functions (with_structs (s5 b)) [] := by
      rw [hpf] at hpf2
      exact (Option.some.inj hpf2).symm
    subst hb7
    refine ⟨?_, ?_, ?_, ?_⟩
    · rw [with_functions_function_handles]
      rfl
    · rfl
    · rw [with_functions_struct_handles, ws_struct_handles]
      simp [s5_table_size, hts, drawStructHandles]
    · rw [with_functions_struct_defs, ws_struct_defs, (s5_empties b hm).2.2.2.2.1]
      simp [s5_table_size, hts, structRuns]
  · intro ts os
    exact ⟨rfl, rfl⟩

/-- Witness for C8 at a concrete zero-table-size builder and a concrete
zero-count generator. -/
theorem C8_witness :
    (materialize_unverified wB0).isSome ∧
    wB0res.1.function_handles = [] ∧ wB0res.1.function_defs = [] ∧
    wB0res.1.struct_handles = [] ∧ wB0res.1.struct_defs = [] ∧
    drain (ModuleGenerator.new 5 0 ⟨[]⟩) = some [] := by
  have h := C8_theorem wB0 rfl rfl
  have h2 := h.1.2 wB0res.1 wB0res.2 rfl
  exact ⟨h.1.1, h2.1, h2.2.1, h2.2.2.1, h2.2.2.2, (h.2 5 ⟨[]⟩).1⟩

/-- Claim C9: with table size 3, universe size 1 and no body-synthesis hook,
whatever the OS entropy, the single yielded module has exactly 3 struct
handles and 3 struct definitions, each struct's field count in
`[1, MAX_FIELDS)`, and exactly 3 function handles and definitions, every
handle's module-handle component being 0 (no external calls, since no other
module was known). -/
theorem C9_theorem (os : OsS) (m : VerifiedModule) (g2 : ModuleGenerator)
    (h : genNext (ModuleGenerator.new 3 1 os) = NextResult.yielded m g2) :
    m.struct_handles.length = 3 ∧ m.struct_defs.length = 3 ∧
    (∀ sd ∈ m.struct_defs, 1 ≤ sd.field_information.field_count ∧
      sd.field_information.field_count < MAX_FIELDS) ∧
    m.function_handles.length = 3 ∧ m.function_defs.length = 3 ∧
    (∀ fh ∈ m.function_handles, fh.module = 0) := by
  have hmat := genNext_yielded _ _ _ h
  rcases materialize_unverified_some_spec _ m g2.module_builder hmat with ⟨b7, hpf, rfl, _⟩
  have hsh := materialized_shape (ModuleGenerator.new 3 1 os).module_builder b7 rfl hpf
  have hts3 : (ModuleGenerator.new 3 1 os).module_builder.table_size = 3 := rfl
  rw [hts3] at hsh
  exact hsh

set_option maxRecDepth 100000 in
set_option maxHeartbeats 1000000 in
/-- Witness for C9 at concrete OS entropy. -/
theorem C9_witness :
    genNext wG31 = NextResult.yielded wG31m wG31g ∧
    wG31m.struct_handles.length = 3 ∧ wG31m.struct_defs.length = 3 ∧
    1 ≤ (wG31m.struct_defs.headD default).field_information.field_count ∧
    (wG31m.struct_defs.headD default).field_information.field_count < MAX_FIELDS ∧
    wG31m.function_handles.length = 3 ∧ wG31m.function_defs.length = 3 ∧
    (wG31m.function_handles.headD default).module = 0 := by
  have h0 : genNext wG31 = NextResult.yielded wG31m wG31g := rfl
  have hthm := C9_theorem ⟨[1, 2, 3, 4]⟩ wG31m wG31g h0
  exact ⟨h0, hthm.1, hthm.2.1, (hthm.2.2.1 _ (by decide)).1, (hthm.2.2.1 _ (by decide)).2,
    hthm.2.2.2.1, hthm.2.2.2.2.1, hthm.2.2.2.2.2 _ (by decide)⟩

end CostSynthesis
